/-
  Verification of the backtest simulation core of the quant-trading-system
  repository (quant_backend/strategy_module.py and quant_backend/backtest_module.py).

  Shallow embedding conventions:
  - Money amounts, prices, rates and signal strengths are modelled as ℚ
    (the Python code uses floats; all the operations under verification are
    field operations, `max`, truncation and comparisons, which ℚ models
    exactly).
  - Dates are ℕ; instrument symbols are String.
  - A pandas DataFrame indexed by date with the columns the engine reads
    (`close`, `signal`, `signal_strength`) is an association list
    `List (ℕ × Row)`; `data.loc[date, col]` is lookup of the first entry
    with that date, `date in data.index` is membership.
  - Python dicts (signals_data, holdings) are association lists preserving
    insertion order, with first-match lookup and in-place update semantics.
  - Python `int(x)` on a float truncates toward zero: `truncQ`.
  - Fallible code is modelled with `Except String`: the only exception
    reachable in the embedded fragment is the ZeroDivisionError raised by
    `calculate_position_size` when `price = 0`.
-/
import Mathlib

namespace Quant

/-- Truncation toward zero, the semantics of Python `int(x)` on a float. -/
def truncQ (x : ℚ) : ℤ := if 0 ≤ x then ⌊x⌋ else ⌈x⌉

/-! ### PositionManager (strategy_module.py)

The A-share fee schedule is hard-coded in `PositionManager.__init__`:
`commission_rate = 0.0003`, `stamp_tax = 0.001`, `transfer_fee = 0.00002`,
`min_commission = 5.0`; they are therefore constants of the embedding. -/

def commission_rate : ℚ := 3 / 10000

def stamp_tax : ℚ := 1 / 1000

def transfer_fee : ℚ := 2 / 100000

def min_commission : ℚ := 5

/-- Construction-time configuration of `PositionManager`. -/
structure PositionManager where
  initial_cash : ℚ
  max_drawdown : ℚ
  max_position_ratio : ℚ
deriving Repr, DecidableEq

/-- Embedding of `PositionManager.calculate_position_size` (strategy_module.py lines 40-65).
Returns the number of shares, an integer multiple of the 100-share lot. -/
def calculate_position_size (pm : PositionManager) (current_value price signal_strength : ℚ) : ℤ :=
  let base_position := current_value * pm.max_position_ratio * signal_strength
  let available_cash := base_position * (1 - commission_rate - transfer_fee)
  let available_cash := available_cash - min_commission
  let shares := truncQ (available_cash / price / 100) * 100
  max 0 shares

/-- Version of `calculate_position_size` as executed by Python: float division by a zero
price raises ZeroDivisionError. -/
def calculate_position_sizeE (pm : PositionManager) (current_value price signal_strength : ℚ) :
    Except String ℤ :=
  if price = 0 then .error "ZeroDivisionError: float division by zero"
  else .ok (calculate_position_size pm current_value price signal_strength)

/-- Embedding of `PositionManager.calculate_trade_cost` (strategy_module.py lines 67-92). -/
def calculate_trade_cost (shares price : ℚ) (is_buy : Bool) : ℚ :=
  let trade_value := shares * price
  let commission := max (trade_value * commission_rate) min_commission
  let transfer := trade_value * transfer_fee
  let stamp := if ¬ is_buy then trade_value * stamp_tax else 0
  commission + transfer + stamp

/-- Embedding of `PositionManager.check_risk_control` (strategy_module.py lines 94-111). -/
def check_risk_control (pm : PositionManager) (current_value : ℚ) : Bool :=
  let current_drawdown := (pm.initial_cash - current_value) / pm.initial_cash
  if current_drawdown > pm.max_drawdown then false else true

/-! ### Data model of the engine's inputs -/

/-- One DataFrame row as read by the engine: the `close`, `signal` and
`signal_strength` columns. `signal` is 1 (buy), -1 (sell) or 0 (hold). -/
structure Row where
  close : ℚ
  signal : ℤ
  strength : ℚ
deriving Repr, DecidableEq

/-- A per-instrument date-indexed DataFrame. -/
abbrev DF := List (ℕ × Row)

/-- Type of `signals_data`: a dict from symbol to DataFrame, in insertion order. -/
abbrev SignalsData := List (String × DF)

/-- Lookup `data.loc[date, ...]` where `date in data.index` is first-match lookup. -/
def lookupRow (data : DF) (date : ℕ) : Option Row :=
  (data.find? (fun e => e.1 = date)).map (fun e => e.2)

/-- Dict lookup (`d[k]` / `k in d`), first match. -/
def dictGet (d : List (String × ℚ)) (k : String) : Option ℚ :=
  (d.find? (fun e => e.1 = k)).map (fun e => e.2)

/-- Python `d.get(k, v)`. -/
def dictGetD (d : List (String × ℚ)) (k : String) (v : ℚ) : ℚ :=
  (dictGet d k).getD v

/-- Dict assignment `d[k] = v`: update in place if present, else append. -/
def dictSet (d : List (String × ℚ)) (k : String) (v : ℚ) : List (String × ℚ) :=
  match d with
  | [] => [(k, v)]
  | (k', v') :: rest => if k' = k then (k, v) :: rest else (k', v') :: dictSet rest k v

/-- Lookup of a symbol's DataFrame in `signals_data`. -/
def sdGet (sd : SignalsData) (k : String) : Option DF :=
  (sd.find? (fun e => e.1 = k)).map (fun e => e.2)

/-! ### BacktestEngine run state (backtest_module.py) -/

/-- One entry of `self.trades`. A BUY record carries `total_cost`,
a SELL record carries `net_proceeds`; the absent key is `none`. -/
structure TradeRecord where
  date : ℕ
  symbol : String
  action : String
  shares : ℚ
  price : ℚ
  trade_value : ℚ
  trade_cost : ℚ
  total_cost : Option ℚ
  net_proceeds : Option ℚ
  signal_strength : ℚ
  cash_after : ℚ
deriving Repr, DecidableEq

/-- One entry of `self.portfolio_values`. -/
structure Snapshot where
  date : ℕ
  portfolio_value : ℚ
  cash : ℚ
  holdings_value : ℚ
deriving Repr, DecidableEq

/-- The mutable fields of `BacktestEngine` (its Run State). -/
structure EngineState where
  cash : ℚ
  holdings : List (String × ℚ)
  trades : List TradeRecord
  portfolio_values : List Snapshot
  max_portfolio_value : ℚ
  max_drawdown : ℚ
deriving Repr, DecidableEq

/-- Embedding of `BacktestEngine.reset_state`. -/
def reset_state (initial_cash : ℚ) : EngineState :=
  { cash := initial_cash
    holdings := []
    trades := []
    portfolio_values := []
    max_portfolio_value := initial_cash
    max_drawdown := 0 }

/-- Embedding of `BacktestEngine._calculate_portfolio_value` (backtest_module.py lines
125-137): cash plus, for each held instrument that has a bar **on this
date**, shares times that date's close.  An instrument with no bar on
`date` contributes nothing. -/
def calculate_portfolio_value (date : ℕ) (sd : SignalsData) (st : EngineState) : ℚ :=
  st.holdings.foldl
    (fun (total : ℚ) (e : String × ℚ) =>
      if e.2 > 0 then
        match sdGet sd e.1 with
        | some data =>
          match lookupRow data date with
          | some row => total + e.2 * row.close
          | none => total
        | none => total
      else total)
    st.cash

/-- Embedding of `BacktestEngine._execute_buy_order` (backtest_module.py lines 165-207).
`Except` carries the ZeroDivisionError that `calculate_position_size`
raises on a zero price; every other path returns normally.  The guard
`symbol in self.holdings and self.holdings[symbol] > 0` is rendered as
`dictGetD st.holdings symbol 0 > 0` (an absent key defaults to 0, which is
not positive, so the two are the same condition). -/
def execute_buy_orderE (symbol : String) (price signal_strength : ℚ)
    (pm : PositionManager) (date : ℕ) (st : EngineState) : Except String EngineState :=
  if dictGetD st.holdings symbol 0 > 0 then .ok st
  else
    match calculate_position_sizeE pm st.cash price signal_strength with
    | .error e => .error e
    | .ok shares =>
      if shares ≤ 0 then .ok st
      else
        let trade_cost := calculate_trade_cost (shares : ℚ) price true
        let total_cost := (shares : ℚ) * price + trade_cost
        if total_cost > st.cash then .ok st
        else
          let cash' := st.cash - total_cost
          .ok { st with
            cash := cash'
            holdings := dictSet st.holdings symbol (dictGetD st.holdings symbol 0 + (shares : ℚ))
            trades := st.trades ++ [{
              date := date
              symbol := symbol
              action := "BUY"
              shares := (shares : ℚ)
              price := price
              trade_value := (shares : ℚ) * price
              trade_cost := trade_cost
              total_cost := some total_cost
              net_proceeds := none
              signal_strength := signal_strength
              cash_after := cash' }] }

/-- Embedding of `BacktestEngine._execute_sell_order` (backtest_module.py lines 209-243).
No operation in the sell path can raise; the `Except` type mirrors the
call sites inside the per-order try/except.  The guard
`symbol not in self.holdings or self.holdings[symbol] <= 0` is rendered as
`¬ (dictGetD st.holdings symbol 0 > 0)`. -/
def execute_sell_orderE (symbol : String) (price signal_strength : ℚ)
    (_pm : PositionManager) (date : ℕ) (st : EngineState) : Except String EngineState :=
  if ¬ (dictGetD st.holdings symbol 0 > 0) then .ok st
  else
    let shares := dictGetD st.holdings symbol 0
    let trade_cost := calculate_trade_cost shares price false
    let trade_value := shares * price
    let net_proceeds := trade_value - trade_cost
    let cash' := st.cash + net_proceeds
    .ok { st with
      cash := cash'
      holdings := dictSet st.holdings symbol 0
      trades := st.trades ++ [{
        date := date
        symbol := symbol
        action := "SELL"
        shares := shares
        price := price
        trade_value := trade_value
        trade_cost := trade_cost
        total_cost := none
        net_proceeds := some net_proceeds
        signal_strength := signal_strength
        cash_after := cash' }] }

/-- The body of the per-symbol loop of
`BacktestEngine._process_trading_signals` (backtest_module.py lines
139-163): skip symbols without a bar on this date or with signal 0,
dispatch on the signal, and catch any exception of the order execution
(the inner `try/except ... continue`), leaving the state unchanged. -/
def process_symbol_signal (date : ℕ) (pm : PositionManager) (st : EngineState)
    (entry : String × DF) : EngineState :=
  match lookupRow entry.2 date with
  | none => st
  | some row =>
    if row.signal = 0 then st
    else
      let attempt : Except String EngineState :=
        if row.signal = 1 then
          execute_buy_orderE entry.1 row.close row.strength pm date st
        else if row.signal = -1 then
          execute_sell_orderE entry.1 row.close row.strength pm date st
        else .ok st
      match attempt with
      | .ok st' => st'
      | .error _ => st

/-- Embedding of `BacktestEngine._process_trading_signals`: iterate the `signals_data`
dict in its own (insertion) order. -/
def process_trading_signals (date : ℕ) (sd : SignalsData) (pm : PositionManager)
    (st : EngineState) : EngineState :=
  sd.foldl (process_symbol_signal date pm) st

/-- First phase of `BacktestEngine._process_trading_day` (backtest_module.py
lines 100-115): append the equity snapshot for the given portfolio value
and update the running peak and the running max drawdown. -/
def append_snapshot (date : ℕ) (portfolio_value : ℚ) (st : EngineState) : EngineState :=
  let st := { st with
    portfolio_values := st.portfolio_values ++ [{
      date := date
      portfolio_value := portfolio_value
      cash := st.cash
      holdings_value := portfolio_value - st.cash }] }
  let st := if portfolio_value > st.max_portfolio_value then
      { st with max_portfolio_value := portfolio_value } else st
  let current_drawdown := (st.max_portfolio_value - portfolio_value) / st.max_portfolio_value
  if current_drawdown > st.max_drawdown then
    { st with max_drawdown := current_drawdown } else st

/-- Embedding of `BacktestEngine._process_trading_day` (backtest_module.py lines 96-123):
value the portfolio, append the equity snapshot, update the running peak
and max drawdown, evaluate the risk gate, and only if it passes process
this date's signals. -/
def process_trading_day (date : ℕ) (sd : SignalsData) (pm : PositionManager)
    (st : EngineState) : EngineState :=
  let portfolio_value := calculate_portfolio_value date sd st
  let st := append_snapshot date portfolio_value st
  if ¬ check_risk_control pm portfolio_value then st
  else process_trading_signals date sd pm st

/-- Insertion of a date into a sorted duplicate-free list, preserving both
properties. -/
def insert_date (x : ℕ) : List ℕ → List ℕ
  | [] => [x]
  | y :: ys => if x < y then x :: y :: ys else if x = y then y :: ys else y :: insert_date x ys

/-- Embedding of `BacktestEngine._get_all_trading_dates`:
`sorted(set(union of the indices of all non-empty DataFrames))`, rendered
as repeated sorted-unique insertion (the result is the ascending list of
the distinct dates, exactly what `sorted` of the `set` returns). -/
def get_all_trading_dates (sd : SignalsData) : List ℕ :=
  (sd.foldl (fun acc e => if e.2.isEmpty then acc else acc ++ e.2.map Prod.fst) []).foldr
    insert_date []

/-! ### Report generation (backtest_module.py lines 245-462)

The report fields `annual_return` and `sharpe_ratio`, and the risk-metric
block, involve a real-valued power `x ** (252/days)` and `sqrt`; they are
display statistics that no verified property references, and are omitted
from the embedding.  Likewise `_calculate_trade_statistics`, whose outputs
no claim inspects.  All the remaining report arithmetic is exact in ℚ. -/

/-- An optional benchmark DataFrame: date-indexed `close` series. -/
abbrev BenchDF := List (ℕ × ℚ)

/-- The dict returned by `_calculate_benchmark_comparison`: keys absent
from a branch are `none`. -/
structure BenchmarkComparison where
  available : Bool
  reason : Option String
  benchmark_return : Option ℚ
  portfolio_return : Option ℚ
  excess_return : Option ℚ
  beta : Option ℚ
  tracking_days : Option ℕ
deriving Repr, DecidableEq

/-- Series `series.pct_change().dropna()`: consecutive fractional changes. -/
def pct_change (xs : List ℚ) : List ℚ :=
  (xs.zip xs.tail).map (fun p => (p.2 - p.1) / p.1)

/-- Arithmetic mean of a list (0 on the empty list, matching `ℚ` division
by zero; only applied to non-empty lists below). -/
def listMean (xs : List ℚ) : ℚ := xs.sum / xs.length

/-- Covariance `np.cov(x, y)[0, 1]` with numpy's default `ddof = 1`. -/
def sampleCov (xs ys : List ℚ) : ℚ :=
  ((xs.zip ys).map (fun p => (p.1 - listMean xs) * (p.2 - listMean ys))).sum / (xs.length - 1 : ℤ)

/-- Variance `np.var(y)` with numpy's default `ddof = 0`. -/
def popVar (ys : List ℚ) : ℚ :=
  (ys.map (fun y => (y - listMean ys) ^ 2)).sum / ys.length

/-- Lookup `benchmark_data.loc[d, 'close']` over the aligned dates. -/
def benchGet (bd : BenchDF) (d : ℕ) : ℚ :=
  ((bd.find? (fun e => e.1 = d)).map (fun e => e.2)).getD 0

/-- Embedding of `BacktestEngine._calculate_benchmark_comparison` (backtest_module.py
lines 394-441).  `portfolio_df.index.intersection(benchmark_data.index)`
keeps the portfolio's date order (pandas `sort=False` default).  Nothing in
the embedded arithmetic can raise, so the enclosing `try/except` branch
(`available=False` on exception) is unreachable in the model. -/
def calculate_benchmark_comparison (history : List Snapshot) (benchmark_data : Option BenchDF) :
    BenchmarkComparison :=
  match benchmark_data with
  | none =>
    { available := false, reason := some "无基准数据"
      benchmark_return := none, portfolio_return := none
      excess_return := none, beta := none, tracking_days := none }
  | some bd =>
    if bd.isEmpty then
      { available := false, reason := some "无基准数据"
        benchmark_return := none, portfolio_return := none
        excess_return := none, beta := none, tracking_days := none }
    else
      let common_dates := (history.map Snapshot.date).filter (fun d => bd.any (fun e => e.1 = d))
      if common_dates.isEmpty then
        { available := false, reason := some "基准数据日期不匹配"
          benchmark_return := none, portfolio_return := none
          excess_return := none, beta := none, tracking_days := none }
      else
        let portfolio_aligned :=
          ((history.filter (fun s => bd.any (fun e => e.1 = s.date))).map Snapshot.portfolio_value)
        let benchmark_aligned := common_dates.map (benchGet bd)
        let benchmark_initial := benchmark_aligned.headD 0
        let benchmark_final := benchmark_aligned.getLastD 0
        let benchmark_return := (benchmark_final - benchmark_initial) / benchmark_initial * 100
        let portfolio_initial := portfolio_aligned.headD 0
        let portfolio_final := portfolio_aligned.getLastD 0
        let portfolio_return := (portfolio_final - portfolio_initial) / portfolio_initial * 100
        let excess_return := portfolio_return - benchmark_return
        let portfolio_returns := pct_change portfolio_aligned
        let benchmark_returns := pct_change benchmark_aligned
        let beta :=
          if portfolio_returns.length > 1 ∧ benchmark_returns.length > 1 then
            sampleCov portfolio_returns benchmark_returns / popVar benchmark_returns
          else 0
        { available := true, reason := none
          benchmark_return := some benchmark_return
          portfolio_return := some portfolio_return
          excess_return := some excess_return
          beta := some beta
          tracking_days := some common_dates.length }

/-- The `summary` block of the report (exact-arithmetic fields only;
returns and drawdown are percentages, `× 100`). -/
structure Summary where
  initial_cash : ℚ
  final_value : ℚ
  total_return : ℚ
  max_drawdown : ℚ
  trading_days : ℕ
deriving Repr, DecidableEq

/-- The result dict of `run_backtest`: either the success report of
`_generate_backtest_report` or the failure report of
`_generate_error_report` (whose dict omits the benchmark, history, trades
and holdings keys — rendered as `none` / `[]`). -/
structure Report where
  success : Bool
  error : Option String
  summary : Summary
  benchmark_comparison : Option BenchmarkComparison
  portfolio_history : List Snapshot
  trades : List TradeRecord
  holdings : List (String × ℚ)
deriving Repr, DecidableEq

/-- Embedding of `BacktestEngine._generate_error_report` (backtest_module.py lines 443-462). -/
def generate_error_report (initial_cash : ℚ) (error_message : String) : Report :=
  { success := false
    error := some error_message
    summary := { initial_cash := initial_cash, final_value := initial_cash
                 total_return := 0, max_drawdown := 0, trading_days := 0 }
    benchmark_comparison := none
    portfolio_history := []
    trades := []
    holdings := [] }

/-- Embedding of `BacktestEngine._generate_backtest_report` (backtest_module.py lines
245-296). -/
def generate_backtest_report (initial_cash : ℚ) (st : EngineState)
    (benchmark_data : Option BenchDF) : Report :=
  if st.portfolio_values.isEmpty then
    generate_error_report initial_cash "没有有效的组合价值数据"
  else
    let final_value := (st.portfolio_values.getLastD
      { date := 0, portfolio_value := 0, cash := 0, holdings_value := 0 }).portfolio_value
    let total_return := (final_value - initial_cash) / initial_cash
    let days := st.portfolio_values.length
    let benchmark_stats := calculate_benchmark_comparison st.portfolio_values benchmark_data
    { success := true
      error := none
      summary := { initial_cash := initial_cash, final_value := final_value
                   total_return := total_return * 100
                   max_drawdown := st.max_drawdown * 100, trading_days := days }
      benchmark_comparison := some benchmark_stats
      portfolio_history := st.portfolio_values
      trades := st.trades
      holdings := st.holdings.filter (fun e => e.2 > 0) }

/-- Embedding of `BacktestEngine.run_backtest` (backtest_module.py lines 43-84): reset
the state, collect the trading dates (raising `ValueError` — caught by the
surrounding `try/except` into an error report — when there are none), fold
`_process_trading_day` over the dates in ascending order, and build the
report. -/
def run_backtest (initial_cash : ℚ) (sd : SignalsData) (pm : PositionManager)
    (benchmark_data : Option BenchDF) : Report :=
  let st := reset_state initial_cash
  let all_dates := get_all_trading_dates sd
  if all_dates.isEmpty then
    generate_error_report initial_cash "没有找到有效的交易日期"
  else
    generate_backtest_report initial_cash
      (all_dates.foldl (fun s d => process_trading_day d sd pm s) st) benchmark_data

/-! ### Spec-side definitions

The following definitions are written from the specification's wording, not
from the code; the theorems compare the code's behaviour against them. -/

/-- Spec formula for the Cost Model (spec §4.1): commission with a
minimum-commission floor, plus a transfer fee on both sides, plus an exit
tax only when `is_buy = false`. -/
def cost_spec (quantity price : ℚ) (is_buy : Bool) : ℚ :=
  max (quantity * price * commission_rate) min_commission
    + quantity * price * transfer_fee
    + (if is_buy then 0 else quantity * price * stamp_tax)

/-- The bar of `data` with the greatest date ≤ `d`, if any: the "last
known" bar of an instrument as of date `d` (spec-side notion). -/
def last_bar_on_or_before (data : DF) (d : ℕ) : Option (ℕ × Row) :=
  (data.filter (fun e => e.1 ≤ d)).foldl
    (fun (best : Option (ℕ × Row)) e =>
      match best with
      | none => some e
      | some b => if e.1 ≥ b.1 then some e else some b)
    none

/-- Valuation of the holdings with each instrument frozen at its last
known close price on or before `d` — the valuation policy the spec
asserts in claim C2. -/
def frozen_holdings_value (sd : SignalsData) (holdings : List (String × ℚ)) (d : ℕ) : ℚ :=
  (holdings.map (fun e =>
    if e.2 > 0 then
      match sdGet sd e.1 with
      | some data =>
        match last_bar_on_or_before data d with
        | some b => e.2 * b.2.close
        | none => 0
      | none => 0
    else 0)).sum

/-- Valuation of the holdings using only bars present **on** date `d`
(an instrument with no bar that day contributes zero) — the policy the
code actually implements. -/
def same_day_holdings_value (sd : SignalsData) (holdings : List (String × ℚ)) (d : ℕ) : ℚ :=
  (holdings.map (fun e =>
    if e.2 > 0 then
      match sdGet sd e.1 with
      | some data =>
        match lookupRow data d with
        | some row => e.2 * row.close
        | none => 0
      | none => 0
    else 0)).sum

/-- All holding quantities of a state are non-negative. -/
def holdingsNonneg (st : EngineState) : Prop := ∀ e ∈ st.holdings, 0 ≤ e.2

/-! ### Concrete scenario inputs used by counterexamples and witnesses -/

/-- A `PositionManager` with the spec's default configuration: capital
1,000,000, max drawdown 10%, max position ratio 95%. -/
def pmDefault : PositionManager :=
  { initial_cash := 1000000, max_drawdown := 1/10, max_position_ratio := 95/100 }

/-- Two instruments: "A" has a single bar on date 1 carrying a BUY signal;
"B" has signal-free bars on dates 1 and 2.  On date 2 the engine still
holds "A" but "A" has no bar, so the code values that holding at zero. -/
def sdFrozen : SignalsData :=
  [("A", [(1, { close := 10, signal := 1, strength := 1 })]),
   ("B", [(1, { close := 10, signal := 0, strength := 0 }),
          (2, { close := 10, signal := 0, strength := 0 })])]

/-- A single instrument whose only bar has a zero close price and a BUY
signal: executing the order raises ZeroDivisionError inside
`calculate_position_size`. -/
def sdZeroPrice : SignalsData :=
  [("A", [(1, { close := 0, signal := 1, strength := 1 })])]

/-- Two instruments in descending-identifier dict order, both with a BUY
signal on date 1. -/
def sdDescending : SignalsData :=
  [("B", [(1, { close := 10, signal := 1, strength := 1 })]),
   ("A", [(1, { close := 10, signal := 1, strength := 1 })])]

/-- A mid-run state whose portfolio value (850,000 in cash, no holdings)
breaches the 10% drawdown ceiling of `pmDefault`. -/
def stVeto : EngineState :=
  { cash := 850000, holdings := [], trades := [], portfolio_values := [],
    max_portfolio_value := 1000000, max_drawdown := 0 }

/-- The BUY trade record produced on date 1 of the `sdFrozen` scenario. -/
def trFrozenBuy : TradeRecord :=
  { date := 1, symbol := "A", action := "BUY", shares := 94900, price := 10
    trade_value := 949000, trade_cost := 7592/25, total_cost := some (23732592/25)
    net_proceeds := none, signal_strength := 1, cash_after := 1267408/25 }

/-- The engine state after date 1 of the `sdFrozen` scenario. -/
def stFrozen1 : EngineState :=
  { cash := 1267408/25, holdings := [("A", 94900)], trades := [trFrozenBuy]
    portfolio_values := [{ date := 1, portfolio_value := 1000000, cash := 1000000, holdings_value := 0 }]
    max_portfolio_value := 1000000, max_drawdown := 0 }

/-- The engine state after date 2 of the `sdFrozen` scenario: instrument
"A" has no bar on date 2, so the snapshot values the portfolio at the cash
alone and the recorded drawdown collapses accordingly. -/
def stFrozen2 : EngineState :=
  { cash := 1267408/25, holdings := [("A", 94900)], trades := [trFrozenBuy]
    portfolio_values := [{ date := 1, portfolio_value := 1000000, cash := 1000000, holdings_value := 0 },
      { date := 2, portfolio_value := 1267408/25, cash := 1267408/25, holdings_value := 0 }]
    max_portfolio_value := 1000000, max_drawdown := 1483287/1562500 }

/-- The engine state after date 1 of the `sdDescending` scenario: both
orders execute, in dict order "B" before "A". -/
def stDescending1 : EngineState :=
  { cash := 67024/25
    holdings := [("B", 94900), ("A", 4800)]
    trades := [
      { date := 1, symbol := "B", action := "BUY", shares := 94900, price := 10
        trade_value := 949000, trade_cost := 7592/25, total_cost := some (23732592/25)
        net_proceeds := none, signal_strength := 1, cash_after := 1267408/25 },
      { date := 1, symbol := "A", action := "BUY", shares := 4800, price := 10
        trade_value := 48000, trade_cost := 384/25, total_cost := some (1200384/25)
        net_proceeds := none, signal_strength := 1, cash_after := 67024/25 }]
    portfolio_values := [{ date := 1, portfolio_value := 1000000, cash := 1000000, holdings_value := 0 }]
    max_portfolio_value := 1000000, max_drawdown := 0 }

/-- The same two instruments and signals as `sdDescending`, with the dict
in ascending-identifier order. -/
def sdAscending : SignalsData :=
  [("A", [(1, { close := 10, signal := 1, strength := 1 })]),
   ("B", [(1, { close := 10, signal := 1, strength := 1 })])]

/-- The engine state after date 1 of the `sdAscending` scenario: the
mirror image of `stDescending1` — "A" is bought first and gets the large
position. -/
def stAscending1 : EngineState :=
  { cash := 67024/25
    holdings := [("A", 94900), ("B", 4800)]
    trades := [
      { date := 1, symbol := "A", action := "BUY", shares := 94900, price := 10
        trade_value := 949000, trade_cost := 7592/25, total_cost := some (23732592/25)
        net_proceeds := none, signal_strength := 1, cash_after := 1267408/25 },
      { date := 1, symbol := "B", action := "BUY", shares := 4800, price := 10
        trade_value := 48000, trade_cost := 384/25, total_cost := some (1200384/25)
        net_proceeds := none, signal_strength := 1, cash_after := 67024/25 }]
    portfolio_values := [{ date := 1, portfolio_value := 1000000, cash := 1000000, holdings_value := 0 }]
    max_portfolio_value := 1000000, max_drawdown := 0 }

/-- The engine state after date 1 of the `sdZeroPrice` scenario: the BUY
raised inside the per-order try/except, so only the snapshot was recorded. -/
def stZeroPrice1 : EngineState :=
  { cash := 1000000, holdings := [], trades := []
    portfolio_values := [{ date := 1, portfolio_value := 1000000, cash := 1000000, holdings_value := 0 }]
    max_portfolio_value := 1000000, max_drawdown := 0 }

/-! ### Helper lemmas -/

/-- Frame of `append_snapshot`: it only appends the snapshot and moves the
running peak / max drawdown. -/
theorem append_snapshot_spec (d : ℕ) (pv : ℚ) (st : EngineState) :
    (append_snapshot d pv st).cash = st.cash ∧
    (append_snapshot d pv st).holdings = st.holdings ∧
    (append_snapshot d pv st).trades = st.trades ∧
    (append_snapshot d pv st).portfolio_values =
      st.portfolio_values ++ [Snapshot.mk d pv st.cash (pv - st.cash)] := by
  simp only [append_snapshot]
  refine ⟨?_, ?_, ?_, ?_⟩ <;> (split <;> split <;> rfl)

/-- Membership after a dict update: an entry of `dictSet d k v` is the
written pair or an entry of `d`. -/
theorem mem_dictSet (d : List (String × ℚ)) (k : String) (v : ℚ) :
    ∀ e ∈ dictSet d k v, e = (k, v) ∨ e ∈ d := by
  induction d with
  | nil => intro e he; simp [dictSet] at he; exact Or.inl he
  | cons hd tl ih =>
    intro e he
    obtain ⟨k', v'⟩ := hd
    unfold dictSet at he
    by_cases hk : k' = k
    · simp [hk] at he
      rcases he with he | he
      · left; simpa using he
      · right; exact List.mem_cons_of_mem _ he
    · simp [hk] at he
      rcases he with he | he
      · right; simp [he]
      · rcases ih e he with h | h
        · left; exact h
        · right; exact List.mem_cons_of_mem _ h

/-- Non-negative holdings give a non-negative `get(symbol, 0)`. -/
theorem dictGetD_nonneg (d : List (String × ℚ)) (k : String)
    (h : ∀ e ∈ d, 0 ≤ e.2) : 0 ≤ dictGetD d k 0 := by
  unfold dictGetD dictGet
  cases hf : d.find? (fun e => e.1 = k) with
  | none => simp
  | some e =>
    simpa using h e (List.mem_of_find?_eq_some hf)

/-- Case analysis of a normally-returning BUY order: either a no-op (guard
taken) or a positive quantity credited to the symbol's holding with exactly
one BUY trade appended; the snapshot/drawdown fields are never touched. -/
theorem execute_buy_frame {symbol : String} {price ss : ℚ} {pm : PositionManager}
    {date : ℕ} {st st' : EngineState}
    (h : execute_buy_orderE symbol price ss pm date st = .ok st') :
    st'.portfolio_values = st.portfolio_values ∧
    st'.max_portfolio_value = st.max_portfolio_value ∧
    st'.max_drawdown = st.max_drawdown ∧
    ((st'.holdings = st.holdings ∧ st'.trades = st.trades) ∨
     (∃ q : ℚ, 0 < q ∧
        st'.holdings = dictSet st.holdings symbol (dictGetD st.holdings symbol 0 + q) ∧
        ∃ t : TradeRecord, t.symbol = symbol ∧ st'.trades = st.trades ++ [t])) := by
  unfold execute_buy_orderE at h
  split at h
  · cases h
    exact ⟨rfl, rfl, rfl, Or.inl ⟨rfl, rfl⟩⟩
  · split at h
    · simp at h
    · rename_i shares heq
      split at h
      · cases h
        exact ⟨rfl, rfl, rfl, Or.inl ⟨rfl, rfl⟩⟩
      · dsimp only at h
        split at h
        · cases h
          exact ⟨rfl, rfl, rfl, Or.inl ⟨rfl, rfl⟩⟩
        · cases h
          rename_i hnle _
          refine ⟨rfl, rfl, rfl, Or.inr ⟨(shares : ℚ), ?_, rfl, ⟨_, rfl, rfl⟩⟩⟩
          have hs : 0 < shares := by omega
          exact_mod_cast hs

/-- Case analysis of a SELL order (it always returns normally): either a
no-op (no positive holding) or the holding zeroed with exactly one SELL
trade appended; the snapshot/drawdown fields are never touched. -/
theorem execute_sell_frame {symbol : String} {price ss : ℚ} {pm : PositionManager}
    {date : ℕ} {st st' : EngineState}
    (h : execute_sell_orderE symbol price ss pm date st = .ok st') :
    st'.portfolio_values = st.portfolio_values ∧
    st'.max_portfolio_value = st.max_portfolio_value ∧
    st'.max_drawdown = st.max_drawdown ∧
    ((st'.holdings = st.holdings ∧ st'.trades = st.trades) ∨
     (st'.holdings = dictSet st.holdings symbol 0 ∧
      ∃ t : TradeRecord, t.symbol = symbol ∧ st'.trades = st.trades ++ [t])) := by
  unfold execute_sell_orderE at h
  split at h
  · cases h
    exact ⟨rfl, rfl, rfl, Or.inl ⟨rfl, rfl⟩⟩
  · dsimp only at h
    cases h
    exact ⟨rfl, rfl, rfl, Or.inr ⟨rfl, ⟨_, rfl, rfl⟩⟩⟩

/-- A dict update with a non-negative value preserves non-negativity of
all entries. -/
theorem holdingsNonneg_dictSet {d : List (String × ℚ)} {k : String} {v : ℚ}
    (hd : ∀ e ∈ d, 0 ≤ e.2) (hv : 0 ≤ v) :
    ∀ e ∈ dictSet d k v, 0 ≤ e.2 := by
  intro e he
  rcases mem_dictSet d k v e he with h | h
  · rw [h]
    exact hv
  · exact hd e h

/-- A BUY order preserves non-negative holdings. -/
theorem execute_buy_nonneg {symbol : String} {price ss : ℚ} {pm : PositionManager}
    {date : ℕ} {st st' : EngineState}
    (h : execute_buy_orderE symbol price ss pm date st = .ok st')
    (hinv : holdingsNonneg st) : holdingsNonneg st' := by
  rcases execute_buy_frame h with ⟨-, -, -, hcase⟩
  rcases hcase with ⟨hh, -⟩ | ⟨q, hq, hh, -⟩
  · intro e he
    rw [hh] at he
    exact hinv e he
  · intro e he
    rw [hh] at he
    exact holdingsNonneg_dictSet hinv
      (add_nonneg (dictGetD_nonneg _ _ hinv) hq.le) e he

/-- A SELL order preserves non-negative holdings. -/
theorem execute_sell_nonneg {symbol : String} {price ss : ℚ} {pm : PositionManager}
    {date : ℕ} {st st' : EngineState}
    (h : execute_sell_orderE symbol price ss pm date st = .ok st')
    (hinv : holdingsNonneg st) : holdingsNonneg st' := by
  rcases execute_sell_frame h with ⟨-, -, -, hcase⟩
  rcases hcase with ⟨hh, -⟩ | ⟨hh, -⟩
  · intro e he
    rw [hh] at he
    exact hinv e he
  · intro e he
    rw [hh] at he
    exact holdingsNonneg_dictSet hinv le_rfl e he

/-- The per-symbol signal step preserves non-negative holdings. -/
theorem process_symbol_signal_nonneg (date : ℕ) (pm : PositionManager)
    (st : EngineState) (entry : String × DF)
    (hinv : holdingsNonneg st) : holdingsNonneg (process_symbol_signal date pm st entry) := by
  unfold process_symbol_signal
  split
  · exact hinv
  · split
    · exact hinv
    · dsimp only
      split
      · rename_i st' heq
        split at heq
        · exact execute_buy_nonneg heq hinv
        · split at heq
          · exact execute_sell_nonneg heq hinv
          · cases heq
            exact hinv
      · exact hinv

/-- Signal processing over the whole dict preserves non-negative holdings. -/
theorem process_trading_signals_nonneg (date : ℕ) (sd : SignalsData)
    (pm : PositionManager) :
    ∀ st, holdingsNonneg st → holdingsNonneg (process_trading_signals date sd pm st) := by
  unfold process_trading_signals
  induction sd with
  | nil => intro st hinv; exact hinv
  | cons e tl ih =>
    intro st hinv
    exact ih _ (process_symbol_signal_nonneg date pm st e hinv)

/-- A full trading day preserves non-negative holdings. -/
theorem process_trading_day_nonneg (date : ℕ) (sd : SignalsData)
    (pm : PositionManager) (st : EngineState)
    (hinv : holdingsNonneg st) : holdingsNonneg (process_trading_day date sd pm st) := by
  have hsnap : holdingsNonneg (append_snapshot date (calculate_portfolio_value date sd st) st) := by
    intro e he
    rw [(append_snapshot_spec date (calculate_portfolio_value date sd st) st).2.1] at he
    exact hinv e he
  unfold process_trading_day
  dsimp only
  split
  · exact hsnap
  · exact process_trading_signals_nonneg date sd pm _ hsnap

/-- A left fold whose step adds an entry-dependent amount is the initial
value plus the sum of those amounts. -/
theorem foldl_add_eq {α : Type} (f : ℚ → α → ℚ) (g : α → ℚ)
    (hf : ∀ c a, f c a = c + g a) :
    ∀ (l : List α) (c : ℚ), l.foldl f c = c + (l.map g).sum := by
  intro l
  induction l with
  | nil => intro c; simp
  | cons a tl ih =>
    intro c
    rw [List.foldl_cons, hf, ih, List.map_cons, List.sum_cons]
    ring

/-- The engine's portfolio valuation is the cash plus the same-day
holdings value (instruments without a bar on the date contribute zero). -/
theorem calculate_portfolio_value_eq (date : ℕ) (sd : SignalsData) (st : EngineState) :
    calculate_portfolio_value date sd st =
      st.cash + same_day_holdings_value sd st.holdings date := by
  unfold calculate_portfolio_value same_day_holdings_value
  refine foldl_add_eq _ _ ?_ st.holdings st.cash
  intro c a
  by_cases h2 : a.2 > 0
  · simp only [if_pos h2]
    cases hsg : sdGet sd a.1 with
    | none => simp
    | some data =>
      cases hlr : lookupRow data date with
      | none => simp [hlr]
      | some row => simp [hlr]
  · simp [h2]

/-- The per-symbol signal step never touches the recorded snapshots. -/
theorem process_symbol_signal_pv (date : ℕ) (pm : PositionManager)
    (st : EngineState) (entry : String × DF) :
    (process_symbol_signal date pm st entry).portfolio_values = st.portfolio_values := by
  unfold process_symbol_signal
  split
  · rfl
  · split
    · rfl
    · dsimp only
      split
      · rename_i st' heq
        split at heq
        · exact (execute_buy_frame heq).1
        · split at heq
          · exact (execute_sell_frame heq).1
          · cases heq
            rfl
      · rfl

/-- Signal processing never touches the recorded snapshots. -/
theorem process_trading_signals_pv (date : ℕ) (sd : SignalsData) (pm : PositionManager) :
    ∀ st, (process_trading_signals date sd pm st).portfolio_values = st.portfolio_values := by
  unfold process_trading_signals
  induction sd with
  | nil => intro st; rfl
  | cons e tl ih =>
    intro st
    rw [List.foldl_cons, ih, process_symbol_signal_pv]

/-- Fields of the success report in terms of the final engine state. -/
theorem generate_backtest_report_fields (ic : ℚ) (st : EngineState) (bm : Option BenchDF)
    (h : st.portfolio_values ≠ []) :
    (generate_backtest_report ic st bm).success = true ∧
    (generate_backtest_report ic st bm).error = none ∧
    (generate_backtest_report ic st bm).trades = st.trades ∧
    (generate_backtest_report ic st bm).portfolio_history = st.portfolio_values ∧
    (generate_backtest_report ic st bm).holdings = st.holdings.filter (fun e => e.2 > 0) := by
  unfold generate_backtest_report
  rw [if_neg (by simpa using h)]
  exact ⟨rfl, rfl, rfl, rfl, rfl⟩

/-! ### Claim theorems -/

/-- C4: for every quantity ≥ 0 and price ≥ 0 the Cost Model returns exactly
`max(quantity × price × commission_rate, min_commission)` plus
`quantity × price × transfer_fee`, plus `quantity × price × stamp_tax`
added only when `is_buy = false`, and the result is non-negative. -/
theorem c4_cost_model_formula (quantity price : ℚ) (side : Bool)
    (hq : 0 ≤ quantity) (hp : 0 ≤ price) :
    calculate_trade_cost quantity price side = cost_spec quantity price side ∧
      0 ≤ calculate_trade_cost quantity price side := by
  constructor
  · cases side <;> simp [calculate_trade_cost, cost_spec]
  · have hv : 0 ≤ quantity * price := mul_nonneg hq hp
    have h1 : (0:ℚ) ≤ max (quantity * price * commission_rate) min_commission :=
      le_trans (by norm_num [min_commission]) (le_max_right _ _)
    have h2 : 0 ≤ quantity * price * transfer_fee :=
      mul_nonneg hv (by norm_num [transfer_fee])
    have h3 : (0:ℚ) ≤ if ¬ side then quantity * price * stamp_tax else 0 := by
      split
      · exact mul_nonneg hv (by norm_num [stamp_tax])
      · exact le_refl 0
    calc (0:ℚ) ≤ max (quantity * price * commission_rate) min_commission
        + quantity * price * transfer_fee
        + (if ¬ side then quantity * price * stamp_tax else 0) := by positivity
    _ = calculate_trade_cost quantity price side := by simp [calculate_trade_cost]

/-- Witness for C4 at quantity 100, price 10, sell side. -/
theorem c4_cost_model_formula_witness :
    calculate_trade_cost 100 10 false = cost_spec 100 10 false ∧
      0 ≤ calculate_trade_cost 100 10 false :=
  c4_cost_model_formula 100 10 false (by norm_num) (by norm_num)

/-- C3: the risk gate returns `false` exactly when
`(initial_capital − current_value) / initial_capital` strictly exceeds the
configured ceiling; on a vetoed date the engine still appends that date's
equity snapshot but leaves cash, holdings and the trade ledger untouched;
and the date loop then carries on with the remaining dates. -/
theorem c3_risk_gate_veto :
    (∀ pm v, check_risk_control pm v = false ↔
      (pm.initial_cash - v) / pm.initial_cash > pm.max_drawdown) ∧
    (∀ date sd pm st, check_risk_control pm (calculate_portfolio_value date sd st) = false →
      (process_trading_day date sd pm st).cash = st.cash ∧
      (process_trading_day date sd pm st).holdings = st.holdings ∧
      (process_trading_day date sd pm st).trades = st.trades ∧
      (process_trading_day date sd pm st).portfolio_values =
        st.portfolio_values ++ [{
          date := date
          portfolio_value := calculate_portfolio_value date sd st
          cash := st.cash
          holdings_value := calculate_portfolio_value date sd st - st.cash }]) ∧
    (∀ (d : ℕ) (ds : List ℕ) (sd : SignalsData) (pm : PositionManager) (st : EngineState),
      (d :: ds).foldl (fun s x => process_trading_day x sd pm s) st =
        ds.foldl (fun s x => process_trading_day x sd pm s) (process_trading_day d sd pm st)) := by
  refine ⟨?_, ?_, ?_⟩
  · intro pm v
    simp only [check_risk_control]
    split <;> simp_all
  · intro date sd pm st h
    simp only [process_trading_day, h]
    simpa using append_snapshot_spec date (calculate_portfolio_value date sd st) st
  · intro d ds sd pm st
    rfl

/-- Witness for C3: the spec scenario — capital 1,000,000, ceiling 0.10,
value 850,000 (drawdown 0.15) — is vetoed, and a vetoed day at that state
leaves cash, holdings and ledger untouched while the snapshot is recorded. -/
theorem c3_risk_gate_veto_witness :
    (check_risk_control pmDefault 850000 = false ↔
      ((pmDefault.initial_cash - 850000) / pmDefault.initial_cash > pmDefault.max_drawdown)) ∧
    ((process_trading_day 1 sdFrozen pmDefault stVeto).cash = stVeto.cash ∧
      (process_trading_day 1 sdFrozen pmDefault stVeto).holdings = stVeto.holdings ∧
      (process_trading_day 1 sdFrozen pmDefault stVeto).trades = stVeto.trades ∧
      (process_trading_day 1 sdFrozen pmDefault stVeto).portfolio_values =
        stVeto.portfolio_values ++ [{
          date := 1
          portfolio_value := calculate_portfolio_value 1 sdFrozen stVeto
          cash := stVeto.cash
          holdings_value := calculate_portfolio_value 1 sdFrozen stVeto - stVeto.cash }]) :=
  ⟨c3_risk_gate_veto.1 pmDefault 850000,
   c3_risk_gate_veto.2.1 1 sdFrozen pmDefault stVeto (by
     norm_num [check_risk_control, calculate_portfolio_value, stVeto, pmDefault])⟩

/-- C10: the risk gate's result depends only on the `current_value`
argument and the construction-time fields it reads (`initial_cash`,
`max_drawdown`); the gate is embedded as a pure function on an immutable
`PositionManager` value, mirroring that the Python method only reads
`self`.  Consequently a veto never persists: for ANY state — in particular
one reached through earlier vetoed dates — a date whose portfolio value
passes the gate goes on to signal processing. -/
theorem c10_risk_gate_stateless :
    (∀ pm₁ pm₂ v, pm₁.initial_cash = pm₂.initial_cash →
      pm₁.max_drawdown = pm₂.max_drawdown →
      check_risk_control pm₁ v = check_risk_control pm₂ v) ∧
    (∀ date sd pm st, check_risk_control pm (calculate_portfolio_value date sd st) = true →
      process_trading_day date sd pm st =
        process_trading_signals date sd pm
          (append_snapshot date (calculate_portfolio_value date sd st) st)) := by
  constructor
  · intro pm₁ pm₂ v h1 h2
    unfold check_risk_control
    rw [h1, h2]
  · intro date sd pm st h
    simp only [process_trading_day, h]
    simp

/-- Witness for C10: two managers differing only in `max_position_ratio`
agree on the gate, and a passing date (fresh state, zero drawdown)
proceeds to signal processing. -/
theorem c10_risk_gate_stateless_witness :
    (check_risk_control pmDefault 900000 =
      check_risk_control (PositionManager.mk 1000000 (1/10) (1/2)) 900000) ∧
    (process_trading_day 1 sdFrozen pmDefault (reset_state 1000000) =
      process_trading_signals 1 sdFrozen pmDefault
        (append_snapshot 1 (calculate_portfolio_value 1 sdFrozen (reset_state 1000000))
          (reset_state 1000000))) :=
  ⟨c10_risk_gate_stateless.1 pmDefault _ 900000 rfl rfl,
   c10_risk_gate_stateless.2 1 sdFrozen pmDefault (reset_state 1000000) (by
     norm_num [check_risk_control, calculate_portfolio_value, reset_state, pmDefault])⟩

/-- C7: in any state with non-negative holdings (an invariant of every
reachable run state, cf. C8), a BUY signal for an instrument whose holding
quantity is non-zero changes nothing: the order execution returns the
state — cash, every holding and the trade ledger — exactly as it was. -/
theorem c7_buy_while_holding_noop (symbol : String) (price signal_strength : ℚ)
    (pm : PositionManager) (date : ℕ) (st : EngineState)
    (hinv : holdingsNonneg st) (hh : dictGetD st.holdings symbol 0 ≠ 0) :
    execute_buy_orderE symbol price signal_strength pm date st = .ok st := by
  have hpos : dictGetD st.holdings symbol 0 > 0 :=
    lt_of_le_of_ne (dictGetD_nonneg st.holdings symbol hinv) (Ne.symm hh)
  unfold execute_buy_orderE
  rw [if_pos hpos]

/-- Witness for C7: a state holding 100 shares of "A" is untouched by a
new BUY signal for "A". -/
theorem c7_buy_while_holding_noop_witness :
    execute_buy_orderE "A" 10 1 pmDefault 2
      { cash := 1000, holdings := [("A", 100)], trades := [], portfolio_values := [],
        max_portfolio_value := 1000, max_drawdown := 0 } =
    .ok { cash := 1000, holdings := [("A", 100)], trades := [], portfolio_values := [],
          max_portfolio_value := 1000, max_drawdown := 0 } :=
  c7_buy_while_holding_noop "A" 10 1 pmDefault 2 _
    (by intro e he; simp at he; simp [he])
    (by norm_num [dictGetD, dictGet])

/-- C8: holding quantities are never negative in any state reachable
during a run — the reset state satisfies the invariant, every trading day
preserves it, hence every prefix of the date fold satisfies it — and a
SELL signal for an instrument whose holding is zero returns the state
unchanged (cash, holdings and ledger untouched). -/
theorem c8_no_short_positions :
    (∀ initial_cash : ℚ, holdingsNonneg (reset_state initial_cash)) ∧
    (∀ date sd pm st, holdingsNonneg st → holdingsNonneg (process_trading_day date sd pm st)) ∧
    (∀ (initial_cash : ℚ) (sd : SignalsData) (pm : PositionManager) (ds : List ℕ),
      holdingsNonneg (ds.foldl (fun s d => process_trading_day d sd pm s) (reset_state initial_cash))) ∧
    (∀ symbol price ss pm date st, dictGetD st.holdings symbol 0 = 0 →
      execute_sell_orderE symbol price ss pm date st = .ok st) := by
  have hfold : ∀ (sd : SignalsData) (pm : PositionManager) (ds : List ℕ) (st : EngineState),
      holdingsNonneg st →
      holdingsNonneg (ds.foldl (fun s d => process_trading_day d sd pm s) st) := by
    intro sd pm ds
    induction ds with
    | nil => intro st hinv; exact hinv
    | cons d tl ih =>
      intro st hinv
      exact ih _ (process_trading_day_nonneg d sd pm st hinv)
  refine ⟨?_, process_trading_day_nonneg, ?_, ?_⟩
  · intro ic e he
    simp [reset_state] at he
  · intro ic sd pm ds
    exact hfold sd pm ds _ (by intro e he; simp [reset_state] at he)
  · intro symbol price ss pm date st h
    unfold execute_sell_orderE
    rw [if_pos (by rw [h]; exact lt_irrefl 0)]

/-- Witness for C8: the invariant after one day of the `sdFrozen` run, and
a SELL of "A" in a state with no holdings is a no-op. -/
theorem c8_no_short_positions_witness :
    holdingsNonneg (process_trading_day 1 sdFrozen pmDefault (reset_state 1000000)) ∧
    execute_sell_orderE "A" 10 1 pmDefault 1 stVeto = .ok stVeto :=
  ⟨c8_no_short_positions.2.1 1 sdFrozen pmDefault _ (c8_no_short_positions.1 1000000),
   c8_no_short_positions.2.2.2 "A" 10 1 pmDefault 1 stVeto
     (by norm_num [dictGetD, dictGet, stVeto])⟩

/-- Every trading-day step records exactly one equity snapshot whose
portfolio value is the cash plus the SAME-DAY holdings value: a held
instrument with no bar on the date contributes zero, not its last known
price.  Stated against an arbitrary prior state, hence it holds at every
simulated date of every run (corrected form of C2). -/
theorem c2_snapshot_equals_cash_plus_same_day_value (date : ℕ) (sd : SignalsData)
    (pm : PositionManager) (st : EngineState) :
    (process_trading_day date sd pm st).portfolio_values =
      st.portfolio_values ++
        [Snapshot.mk date (st.cash + same_day_holdings_value sd st.holdings date)
          st.cash (same_day_holdings_value sd st.holdings date)] := by
  have hsnap := (append_snapshot_spec date (calculate_portfolio_value date sd st) st).2.2.2
  have hval := calculate_portfolio_value_eq date sd st
  have hone : (append_snapshot date (calculate_portfolio_value date sd st) st).portfolio_values =
      st.portfolio_values ++
        [Snapshot.mk date (st.cash + same_day_holdings_value sd st.holdings date)
          st.cash (same_day_holdings_value sd st.holdings date)] := by
    rw [hsnap, hval]
    simp
  unfold process_trading_day
  dsimp only
  split
  · exact hone
  · rw [process_trading_signals_pv]
    exact hone

/-- Date set of the `sdFrozen` scenario. -/
theorem dates_sdFrozen : get_all_trading_dates sdFrozen = [1, 2] := by
  simp [get_all_trading_dates, insert_date, sdFrozen]

/-- Day 1 of the `sdFrozen` scenario buys 94,900 shares of "A". -/
theorem day1_sdFrozen :
    process_trading_day 1 sdFrozen pmDefault (reset_state 1000000) = stFrozen1 := by
  norm_num [process_trading_day, append_snapshot, check_risk_control, process_trading_signals,
    process_symbol_signal, execute_buy_orderE, execute_sell_orderE, calculate_position_sizeE,
    calculate_position_size, calculate_trade_cost, calculate_portfolio_value,
    lookupRow, dictGet, dictGetD, dictSet, sdGet, truncQ,
    commission_rate, transfer_fee, stamp_tax, min_commission, pmDefault, sdFrozen,
    reset_state, stFrozen1, trFrozenBuy]

/-- Day 2 of the `sdFrozen` scenario: "A" has no bar, so the holding adds
nothing to the snapshot and the recorded drawdown explodes. -/
theorem day2_sdFrozen : process_trading_day 2 sdFrozen pmDefault stFrozen1 = stFrozen2 := by
  norm_num [process_trading_day, append_snapshot, check_risk_control, process_trading_signals,
    process_symbol_signal, execute_buy_orderE, execute_sell_orderE, calculate_position_sizeE,
    calculate_position_size, calculate_trade_cost, calculate_portfolio_value,
    lookupRow, dictGet, dictGetD, dictSet, sdGet, truncQ,
    commission_rate, transfer_fee, stamp_tax, min_commission, pmDefault, sdFrozen,
    stFrozen1, stFrozen2, trFrozenBuy]

/-- The `sdFrozen` run ends in `stFrozen2`. -/
theorem run_sdFrozen :
    run_backtest 1000000 sdFrozen pmDefault none =
      generate_backtest_report 1000000 stFrozen2 none := by
  simp only [run_backtest, dates_sdFrozen]
  norm_num [List.foldl, day1_sdFrozen, day2_sdFrozen]

/-- C2 as stated fails on the code: on date 2 of the `sdFrozen` run the
engine still holds 94,900 shares of "A" (last known close 10, frozen value
949,000), yet the recorded snapshot's portfolio value equals the cash
alone — the holding's contribution is dropped, not frozen. -/
theorem c2_cex_no_frozen_contribution :
    ((run_backtest 1000000 sdFrozen pmDefault none).portfolio_history.getD 1
        (Snapshot.mk 0 0 0 0)).date = 2 ∧
    (run_backtest 1000000 sdFrozen pmDefault none).holdings = [("A", 94900)] ∧
    frozen_holdings_value sdFrozen
        ((run_backtest 1000000 sdFrozen pmDefault none).holdings) 2 = 949000 ∧
    ((run_backtest 1000000 sdFrozen pmDefault none).portfolio_history.getD 1
        (Snapshot.mk 0 0 0 0)).portfolio_value ≠
      ((run_backtest 1000000 sdFrozen pmDefault none).portfolio_history.getD 1
          (Snapshot.mk 0 0 0 0)).cash +
        frozen_holdings_value sdFrozen
          ((run_backtest 1000000 sdFrozen pmDefault none).holdings) 2 := by
  rw [run_sdFrozen]
  have hfields := generate_backtest_report_fields 1000000 stFrozen2 none
    (by simp [stFrozen2])
  rw [hfields.2.2.2.1, hfields.2.2.2.2]
  norm_num [stFrozen2, trFrozenBuy, frozen_holdings_value, last_bar_on_or_before,
    sdGet, sdFrozen]

/-- Date set of the `sdZeroPrice` scenario. -/
theorem dates_sdZeroPrice : get_all_trading_dates sdZeroPrice = [1] := by
  simp [get_all_trading_dates, insert_date, sdZeroPrice]

/-- Day 1 of the `sdZeroPrice` scenario: the BUY order raises and is
swallowed by the per-order handler; only the snapshot is recorded. -/
theorem day1_sdZeroPrice :
    process_trading_day 1 sdZeroPrice pmDefault (reset_state 1000000) = stZeroPrice1 := by
  norm_num [process_trading_day, append_snapshot, check_risk_control, process_trading_signals,
    process_symbol_signal, execute_buy_orderE, execute_sell_orderE, calculate_position_sizeE,
    calculate_position_size, calculate_trade_cost, calculate_portfolio_value,
    lookupRow, dictGet, dictGetD, dictSet, sdGet, truncQ,
    commission_rate, transfer_fee, stamp_tax, min_commission, pmDefault, sdZeroPrice,
    reset_state, stZeroPrice1]

/-- The `sdZeroPrice` run ends in `stZeroPrice1`. -/
theorem run_sdZeroPrice :
    run_backtest 1000000 sdZeroPrice pmDefault none =
      generate_backtest_report 1000000 stZeroPrice1 none := by
  simp only [run_backtest, dates_sdZeroPrice]
  norm_num [List.foldl, day1_sdZeroPrice]

/-- C5 as stated fails on the code: on the `sdZeroPrice` input the BUY
order execution raises (ZeroDivisionError on the zero close price), yet
the run returns a SUCCESS report built from the run state, not a failure
result. -/
theorem c5_cex_order_exception_swallowed :
    (execute_buy_orderE "A" 0 1 pmDefault 1 (reset_state 1000000) =
      .error "ZeroDivisionError: float division by zero") ∧
    (run_backtest 1000000 sdZeroPrice pmDefault none).success = true ∧
    (run_backtest 1000000 sdZeroPrice pmDefault none).error = none := by
  refine ⟨?_, ?_, ?_⟩
  · simp [execute_buy_orderE, calculate_position_sizeE, dictGetD, dictGet, reset_state]
  · rw [run_sdZeroPrice]
    exact (generate_backtest_report_fields 1000000 stZeroPrice1 none
      (by simp [stZeroPrice1])).1
  · rw [run_sdZeroPrice]
    exact (generate_backtest_report_fields 1000000 stZeroPrice1 none
      (by simp [stZeroPrice1])).2.1

/-- C5 amended: an exception raised during the execution of an individual
order is caught by the per-order try/except — that order becomes a no-op,
the state is unchanged and the loop continues — while a fault outside the
per-order scope (an empty set of trading dates) makes the whole run return
the structured failure report with its human-readable cause. -/
theorem c5_per_order_catch_and_run_failure :
    (∀ (date : ℕ) (pm : PositionManager) (st : EngineState) (entry : String × DF) (row : Row),
      lookupRow entry.2 date = some row →
      row.signal = 1 →
      (∃ e, execute_buy_orderE entry.1 row.close row.strength pm date st = .error e) →
      process_symbol_signal date pm st entry = st) ∧
    (∀ (ic : ℚ) (sd : SignalsData) (pm : PositionManager) (bm : Option BenchDF),
      get_all_trading_dates sd = [] →
      run_backtest ic sd pm bm = generate_error_report ic "没有找到有效的交易日期" ∧
      (run_backtest ic sd pm bm).success = false ∧
      (run_backtest ic sd pm bm).error = some "没有找到有效的交易日期") := by
  constructor
  · rintro date pm st entry row hlr hsig ⟨e, he⟩
    unfold process_symbol_signal
    rw [hlr]
    dsimp only
    rw [if_neg (by rw [hsig]; norm_num), if_pos hsig, he]
  · intro ic sd pm bm h
    have heq : run_backtest ic sd pm bm = generate_error_report ic "没有找到有效的交易日期" := by
      unfold run_backtest
      rw [h]
      rfl
    exact ⟨heq, by rw [heq]; rfl, by rw [heq]; rfl⟩

/-- Witness for C5 amended: the zero-price BUY is absorbed, and the empty
signal set yields the failure report. -/
theorem c5_per_order_catch_and_run_failure_witness :
    process_symbol_signal 1 pmDefault (reset_state 1000000)
      ("A", [(1, Row.mk 0 1 1)]) = reset_state 1000000 ∧
    (run_backtest 1000000 [] pmDefault none).success = false :=
  ⟨c5_per_order_catch_and_run_failure.1 1 pmDefault (reset_state 1000000)
      ("A", [(1, Row.mk 0 1 1)]) (Row.mk 0 1 1)
      (by simp [lookupRow]) rfl
      ⟨"ZeroDivisionError: float division by zero",
        by simp [execute_buy_orderE, calculate_position_sizeE, dictGetD, dictGet, reset_state]⟩,
   (c5_per_order_catch_and_run_failure.2 1000000 [] pmDefault none rfl).2.1⟩

/-- Date set of the `sdDescending` scenario. -/
theorem dates_sdDescending : get_all_trading_dates sdDescending = [1] := by
  simp [get_all_trading_dates, insert_date, sdDescending]

/-- Date set of the `sdAscending` scenario. -/
theorem dates_sdAscending : get_all_trading_dates sdAscending = [1] := by
  simp [get_all_trading_dates, insert_date, sdAscending]

set_option maxHeartbeats 1000000 in
/-- Day 1 of the `sdDescending` scenario: both BUY orders execute, "B"
first — the dict's order, not the ascending identifier order. -/
theorem day1_sdDescending :
    process_trading_day 1 sdDescending pmDefault (reset_state 1000000) = stDescending1 := by
  norm_num [process_trading_day, append_snapshot, check_risk_control, process_trading_signals,
    process_symbol_signal, execute_buy_orderE, execute_sell_orderE, calculate_position_sizeE,
    calculate_position_size, calculate_trade_cost, calculate_portfolio_value,
    lookupRow, dictGet, dictGetD, dictSet, sdGet, truncQ,
    commission_rate, transfer_fee, stamp_tax, min_commission, pmDefault, sdDescending,
    reset_state, stDescending1]
  simp

set_option maxHeartbeats 1000000 in
/-- Day 1 of the `sdAscending` scenario: the mirror image, "A" first. -/
theorem day1_sdAscending :
    process_trading_day 1 sdAscending pmDefault (reset_state 1000000) = stAscending1 := by
  norm_num [process_trading_day, append_snapshot, check_risk_control, process_trading_signals,
    process_symbol_signal, execute_buy_orderE, execute_sell_orderE, calculate_position_sizeE,
    calculate_position_size, calculate_trade_cost, calculate_portfolio_value,
    lookupRow, dictGet, dictGetD, dictSet, sdGet, truncQ,
    commission_rate, transfer_fee, stamp_tax, min_commission, pmDefault, sdAscending,
    reset_state, stAscending1]
  simp

/-- The `sdDescending` run ends in `stDescending1`. -/
theorem run_sdDescending :
    run_backtest 1000000 sdDescending pmDefault none =
      generate_backtest_report 1000000 stDescending1 none := by
  simp only [run_backtest, dates_sdDescending]
  norm_num [List.foldl, day1_sdDescending]

/-- The `sdAscending` run ends in `stAscending1`. -/
theorem run_sdAscending :
    run_backtest 1000000 sdAscending pmDefault none =
      generate_backtest_report 1000000 stAscending1 none := by
  simp only [run_backtest, dates_sdAscending]
  norm_num [List.foldl, day1_sdAscending]

/-- C6 as stated fails on the code: `sdDescending` and `sdAscending` carry
the SAME per-instrument signal data — they are permutations of each other,
differing only in dict insertion order — yet the executed trade sequences
differ ("B" gets the large first-executed position in one run, "A" in the
other).  Were the instruments processed in ascending-identifier order, the
two runs would be identical. -/
theorem c6_cex_dict_order_dependent :
    List.Perm sdDescending sdAscending ∧
    sdAscending.map Prod.fst = ["A", "B"] ∧
    (run_backtest 1000000 sdDescending pmDefault none).trades.map
        (fun t => (t.date, t.symbol, t.action)) = [(1, "B", "BUY"), (1, "A", "BUY")] ∧
    (run_backtest 1000000 sdAscending pmDefault none).trades.map
        (fun t => (t.date, t.symbol, t.action)) = [(1, "A", "BUY"), (1, "B", "BUY")] ∧
    (run_backtest 1000000 sdDescending pmDefault none).trades ≠
      (run_backtest 1000000 sdAscending pmDefault none).trades := by
  have hdesc : (run_backtest 1000000 sdDescending pmDefault none).trades.map
      (fun t => (t.date, t.symbol, t.action)) = [(1, "B", "BUY"), (1, "A", "BUY")] := by
    rw [run_sdDescending,
      (generate_backtest_report_fields 1000000 stDescending1 none
        (by simp [stDescending1])).2.2.1]
    simp [stDescending1]
  have hasc : (run_backtest 1000000 sdAscending pmDefault none).trades.map
      (fun t => (t.date, t.symbol, t.action)) = [(1, "A", "BUY"), (1, "B", "BUY")] := by
    rw [run_sdAscending,
      (generate_backtest_report_fields 1000000 stAscending1 none
        (by simp [stAscending1])).2.2.1]
    simp [stAscending1]
  refine ⟨?_, by simp [sdAscending], hdesc, hasc, ?_⟩
  · exact List.Perm.swap _ _ _
  · intro h
    rw [h, hasc] at hdesc
    simp at hdesc

/-- The per-symbol step appends at most one trade, bearing that symbol. -/
theorem process_symbol_signal_trades (date : ℕ) (pm : PositionManager)
    (st : EngineState) (entry : String × DF) :
    ∃ l, (process_symbol_signal date pm st entry).trades = st.trades ++ l ∧
      List.Sublist (l.map (fun t => t.symbol)) [entry.1] := by
  unfold process_symbol_signal
  split
  · exact ⟨[], by simp, by simp⟩
  · split
    · exact ⟨[], by simp, by simp⟩
    · dsimp only
      split
      · rename_i st' heq
        split at heq
        · rcases (execute_buy_frame heq).2.2.2 with ⟨-, ht⟩ | ⟨q, -, -, t, hts, ht⟩
          · exact ⟨[], by simp [ht], by simp⟩
          · exact ⟨[t], by simp [ht], by simp [hts]⟩
        · split at heq
          · rcases (execute_sell_frame heq).2.2.2 with ⟨-, ht⟩ | ⟨-, t, hts, ht⟩
            · exact ⟨[], by simp [ht], by simp⟩
            · exact ⟨[t], by simp [ht], by simp [hts]⟩
          · cases heq
            exact ⟨[], by simp, by simp⟩
      · exact ⟨[], by simp, by simp⟩

/-- C6 amended: on every simulated date the instruments are processed in
the order they appear in the `signals_data` mapping (the Python dict's
insertion order): the trades appended on a date carry symbols forming a
subsequence of the mapping's key sequence, in that order.  Outcomes are
reproducible for the same mapping because the engine is a pure function of
it — but the order is the dict's, not ascending-identifier order (see the
counterexample). -/
theorem c6_processing_in_dict_order (date : ℕ) (sd : SignalsData)
    (pm : PositionManager) :
    ∀ st : EngineState, ∃ l, (process_trading_signals date sd pm st).trades = st.trades ++ l ∧
      List.Sublist (l.map (fun t => t.symbol)) (sd.map Prod.fst) := by
  unfold process_trading_signals
  induction sd with
  | nil => intro st; exact ⟨[], by simp, by simp⟩
  | cons e tl ih =>
    intro st
    obtain ⟨l1, h1, hs1⟩ := process_symbol_signal_trades date pm st e
    obtain ⟨l2, h2, hs2⟩ := ih (process_symbol_signal date pm st e)
    refine ⟨l1 ++ l2, ?_, ?_⟩
    · rw [List.foldl_cons, h2, h1, List.append_assoc]
    · rw [List.map_append, List.map_cons]
      exact List.Sublist.append hs1 hs2

/-- C9: the benchmark comparison degrades to `available = false` with a
stated reason whenever the benchmark series is absent, empty, or shares no
dates with the equity curve, and report generation still succeeds
(`success = true`, no error) for any run with a non-empty equity curve,
whatever the benchmark.  The embedded analytics functions are total, so no
exception is possible. -/
theorem c9_benchmark_soft_degradation :
    (∀ hist : List Snapshot, (calculate_benchmark_comparison hist none).available = false ∧
      (calculate_benchmark_comparison hist none).reason = some "无基准数据") ∧
    (∀ hist : List Snapshot,
      (calculate_benchmark_comparison hist (some [])).available = false ∧
      (calculate_benchmark_comparison hist (some [])).reason = some "无基准数据") ∧
    (∀ (hist : List Snapshot) (bd : BenchDF), (∀ s ∈ hist, ∀ e ∈ bd, e.1 ≠ s.date) →
      (calculate_benchmark_comparison hist (some bd)).available = false ∧
      ∃ r, (calculate_benchmark_comparison hist (some bd)).reason = some r) ∧
    (∀ (ic : ℚ) (st : EngineState) (bm : Option BenchDF), st.portfolio_values ≠ [] →
      (generate_backtest_report ic st bm).success = true ∧
      (generate_backtest_report ic st bm).error = none) := by
  refine ⟨?_, ?_, ?_, ?_⟩
  · intro hist
    exact ⟨rfl, rfl⟩
  · intro hist
    exact ⟨rfl, rfl⟩
  · intro hist bd h
    have hfil : ((hist.map Snapshot.date).filter (fun d => bd.any (fun e => e.1 = d))) = [] := by
      rw [List.filter_eq_nil_iff]
      intro d hd
      simp only [List.mem_map] at hd
      obtain ⟨snap, hs, rfl⟩ := hd
      simp only [List.any_eq_true, decide_eq_true_eq, not_exists]
      intro e
      rw [not_and]
      intro he
      exact h snap hs e he
    simp only [calculate_benchmark_comparison]
    by_cases hbd : bd.isEmpty
    · rw [if_pos hbd]
      exact ⟨rfl, ⟨"无基准数据", rfl⟩⟩
    · rw [if_neg hbd]
      rw [if_pos (by rw [hfil]; rfl)]
      exact ⟨rfl, ⟨"基准数据日期不匹配", rfl⟩⟩
  · intro ic st bm h
    have hf := generate_backtest_report_fields ic st bm h
    exact ⟨hf.1, hf.2.1⟩

/-- Witness for C9: a one-snapshot curve on date 1 against a benchmark
whose only date is 2 — unavailable with a reason, while the same
benchmark leaves report generation successful. -/
theorem c9_benchmark_soft_degradation_witness :
    ((calculate_benchmark_comparison [Snapshot.mk 1 1000000 1000000 0]
        (some [(2, 5)])).available = false ∧
      ∃ r, (calculate_benchmark_comparison [Snapshot.mk 1 1000000 1000000 0]
        (some [(2, 5)])).reason = some r) ∧
    ((generate_backtest_report 1000000 stZeroPrice1 (some [(2, 5)])).success = true ∧
      (generate_backtest_report 1000000 stZeroPrice1 (some [(2, 5)])).error = none) :=
  ⟨c9_benchmark_soft_degradation.2.2.1 [Snapshot.mk 1 1000000 1000000 0] [(2, 5)]
      (by intro s hs e he; simp only [List.mem_singleton] at hs he; rw [hs, he]; norm_num),
   c9_benchmark_soft_degradation.2.2.2 1000000 stZeroPrice1 (some [(2, 5)])
      (by simp [stZeroPrice1])⟩

/-- C1: whenever the Position Sizer returns a positive quantity — for a
positive price, a confidence in [0,1], and a configured max position
fraction in [0,1] (spec §6) — the quantity times the price plus the
buy-side cost under the hard-coded fee schedule never exceeds the
available capital: every sized order is affordable. -/
theorem c1_sizer_affordable (pm : PositionManager) (available_capital price confidence : ℚ)
    (hp : 0 < price) (hc0 : 0 ≤ confidence) (hc1 : confidence ≤ 1)
    (hr0 : 0 ≤ pm.max_position_ratio) (hr1 : pm.max_position_ratio ≤ 1)
    (hq : 0 < calculate_position_size pm available_capital price confidence) :
    (calculate_position_size pm available_capital price confidence : ℚ) * price
      + calculate_trade_cost
          (calculate_position_size pm available_capital price confidence : ℚ) price true
      ≤ available_capital := by
  have hdef : calculate_position_size pm available_capital price confidence
      = max 0 (truncQ ((available_capital * pm.max_position_ratio * confidence *
          (1 - commission_rate - transfer_fee) - min_commission) / price / 100) * 100) := rfl
  have hqe : calculate_position_size pm available_capital price confidence
      = truncQ ((available_capital * pm.max_position_ratio * confidence *
          (1 - commission_rate - transfer_fee) - min_commission) / price / 100) * 100 := by
    rcases le_total (truncQ ((available_capital * pm.max_position_ratio * confidence *
        (1 - commission_rate - transfer_fee) - min_commission) / price / 100) * 100) 0 with h | h
    · exfalso
      rw [hdef, max_eq_left h] at hq
      exact lt_irrefl 0 hq
    · rw [hdef]
      exact max_eq_right h
  have hT : 0 < truncQ ((available_capital * pm.max_position_ratio * confidence *
      (1 - commission_rate - transfer_fee) - min_commission) / price / 100) := by
    rw [hqe] at hq
    omega
  have hx0 : 0 ≤ (available_capital * pm.max_position_ratio * confidence *
      (1 - commission_rate - transfer_fee) - min_commission) / price / 100 := by
    by_contra hneg
    push_neg at hneg
    have hle : truncQ ((available_capital * pm.max_position_ratio * confidence *
        (1 - commission_rate - transfer_fee) - min_commission) / price / 100) ≤ 0 := by
      unfold truncQ
      rw [if_neg (not_le.mpr hneg)]
      exact Int.ceil_le.mpr (by push_cast; exact hneg.le)
    omega
  have hTle : ((truncQ ((available_capital * pm.max_position_ratio * confidence *
      (1 - commission_rate - transfer_fee) - min_commission) / price / 100) : ℤ) : ℚ)
      ≤ (available_capital * pm.max_position_ratio * confidence *
        (1 - commission_rate - transfer_fee) - min_commission) / price / 100 := by
    rw [show truncQ ((available_capital * pm.max_position_ratio * confidence *
        (1 - commission_rate - transfer_fee) - min_commission) / price / 100)
        = ⌊(available_capital * pm.max_position_ratio * confidence *
          (1 - commission_rate - transfer_fee) - min_commission) / price / 100⌋ from by
      unfold truncQ; rw [if_pos hx0]]
    exact Int.floor_le _
  have hw : (calculate_position_size pm available_capital price confidence : ℚ) * price
      ≤ available_capital * pm.max_position_ratio * confidence *
        (1 - commission_rate - transfer_fee) - min_commission := by
    have hdd : (available_capital * pm.max_position_ratio * confidence *
        (1 - commission_rate - transfer_fee) - min_commission) / price / 100
        = (available_capital * pm.max_position_ratio * confidence *
          (1 - commission_rate - transfer_fee) - min_commission) / (price * 100) := by
      rw [div_div]
    have h1 : ((truncQ ((available_capital * pm.max_position_ratio * confidence *
        (1 - commission_rate - transfer_fee) - min_commission) / price / 100) : ℤ) : ℚ)
        * (price * 100)
        ≤ available_capital * pm.max_position_ratio * confidence *
          (1 - commission_rate - transfer_fee) - min_commission := by
      rw [← le_div_iff₀ (by positivity)]
      rw [← hdd]
      exact hTle
    rw [hqe]
    push_cast
    calc ((truncQ ((available_capital * pm.max_position_ratio * confidence *
          (1 - commission_rate - transfer_fee) - min_commission) / price / 100) : ℤ) : ℚ)
          * 100 * price
        = ((truncQ ((available_capital * pm.max_position_ratio * confidence *
          (1 - commission_rate - transfer_fee) - min_commission) / price / 100) : ℤ) : ℚ)
          * (price * 100) := by ring
    _ ≤ _ := h1
  have hq' : (0:ℚ) < (calculate_position_size pm available_capital price confidence : ℚ) := by
    exact_mod_cast hq
  have hw0 : 0 < (calculate_position_size pm available_capital price confidence : ℚ) * price :=
    mul_pos hq' hp
  have hcost : calculate_trade_cost
      (calculate_position_size pm available_capital price confidence : ℚ) price true
      = max ((calculate_position_size pm available_capital price confidence : ℚ) * price
          * commission_rate) min_commission
        + (calculate_position_size pm available_capital price confidence : ℚ) * price
          * transfer_fee := by
    simp [calculate_trade_cost]
  have hVrc_pos : 0 < available_capital * pm.max_position_ratio * confidence := by
    by_contra hle
    push_neg at hle
    have hK : (0:ℚ) < 1 - commission_rate - transfer_fee := by
      norm_num [commission_rate, transfer_fee]
    have hXK : available_capital * pm.max_position_ratio * confidence *
        (1 - commission_rate - transfer_fee) ≤ 0 :=
      mul_nonpos_iff.mpr (Or.inr ⟨hle, hK.le⟩)
    have hmc : (0:ℚ) < min_commission := by norm_num [min_commission]
    linarith
  have hV0 : 0 < available_capital := by
    rcases le_or_lt available_capital 0 with hVle | hVpos
    · exfalso
      have hrc : 0 ≤ pm.max_position_ratio * confidence := mul_nonneg hr0 hc0
      have hXle : available_capital * (pm.max_position_ratio * confidence) ≤ 0 :=
        mul_nonpos_iff.mpr (Or.inr ⟨hVle, hrc⟩)
      have hassoc : available_capital * pm.max_position_ratio * confidence
          = available_capital * (pm.max_position_ratio * confidence) := by ring
      rw [hassoc] at hVrc_pos
      linarith
    · exact hVpos
  have hu : available_capital * pm.max_position_ratio * confidence ≤ available_capital := by
    have hrc1 : pm.max_position_ratio * confidence ≤ 1 := by
      nlinarith
    have : available_capital * (pm.max_position_ratio * confidence) ≤ available_capital * 1 :=
      mul_le_mul_of_nonneg_left hrc1 hV0.le
    calc available_capital * pm.max_position_ratio * confidence
        = available_capital * (pm.max_position_ratio * confidence) := by ring
    _ ≤ available_capital * 1 := this
    _ = available_capital := mul_one _
  rw [hcost]
  rw [show commission_rate = 3/10000 from rfl, show transfer_fee = 2/100000 from rfl,
    show min_commission = 5 from rfl]
  rw [show commission_rate = 3/10000 from rfl, show transfer_fee = 2/100000 from rfl,
    show min_commission = 5 from rfl] at hw
  rcases max_cases ((calculate_position_size pm available_capital price confidence : ℚ) * price
      * (3/10000)) 5 with ⟨hm, -⟩ | ⟨hm, -⟩ <;> rw [hm] <;> linarith

/-- Witness for C1: the default configuration, one million of capital,
price 10, full confidence — 94,900 shares, affordable. -/
theorem c1_sizer_affordable_witness :
    0 < calculate_position_size pmDefault 1000000 10 1 ∧
    (calculate_position_size pmDefault 1000000 10 1 : ℚ) * 10
      + calculate_trade_cost (calculate_position_size pmDefault 1000000 10 1 : ℚ) 10 true
      ≤ 1000000 := by
  have hpos : 0 < calculate_position_size pmDefault 1000000 10 1 := by
    norm_num [calculate_position_size, truncQ, commission_rate, transfer_fee,
      min_commission, pmDefault]
  exact ⟨hpos, c1_sizer_affordable pmDefault 1000000 10 1 (by norm_num) (by norm_num)
    (by norm_num) (by norm_num [pmDefault]) (by norm_num [pmDefault]) hpos⟩

end Quant
